import Mathlib

/-!
Verification of the Dial-AI call-initiation application (src/main.py).

The development shallowly embeds the pure logic of the program:
the number normalizer (`parse_phone_numbers`), the command interpreter
(`parse_ai_command`), the call dispatcher (`make_twilio_call`), the call-log
store (`load_call_logs` / `save_call_log` / `cleanup_all_logs`) and the error
sanitizer (`clean_error_message`).  External effects (the Twilio client, the
language-model backend, the filesystem, the clock) are modelled as explicit
parameters or as a small state type; everything else is translated directly
from the Python source.
-/

namespace DialAI

/-! ## Character and string primitives

Python string operations used by main.py, modelled on `List Char` with
`String` wrappers. -/

/-- ASCII whitespace, as recognised by Python's `str.strip()` and `\s`
(the inputs of this program are ASCII). -/
def is_py_space (c : Char) : Bool :=
  (c == ' ') || (c == '\x09') || (c == '\x0a') || (c == '\x0d') ||
    (c == '\x0b') || (c == '\x0c')

/-- `str.strip()`: drop whitespace from both ends. -/
def strip_l (l : List Char) : List Char :=
  ((l.dropWhile is_py_space).reverse.dropWhile is_py_space).reverse

def py_strip (s : String) : String := String.mk (strip_l s.toList)

/-- `re.sub(r'[^\d+]', '', s)`: keep only digits and plus signs. -/
def kdp_l (l : List Char) : List Char :=
  l.filter (fun c => c.isDigit || c == '+')

def keep_digits_plus (s : String) : String := String.mk (kdp_l s.toList)

/-- `re.sub(r'[^\d]', '', s)`: keep only digits. -/
def digits_only (s : String) : String := String.mk (s.toList.filter Char.isDigit)

/-- `s[-n:]` for a string known to have at least `n` characters. -/
def last_chars (n : Nat) (l : List Char) : List Char := l.drop (l.length - n)

/-- Python `sub in s` substring test (`True` for an empty `sub`). -/
def contains_sub_l (needle : List Char) : List Char → Bool
  | [] => needle.isEmpty
  | h :: t => needle.isPrefixOf (h :: t) || contains_sub_l needle t

def contains_sub (hay needle : String) : Bool :=
  contains_sub_l needle.toList hay.toList

/-- `s.lower()` (ASCII). -/
def to_lower (s : String) : String := String.mk (s.toList.map Char.toLower)

/-- `s.startswith(c)` for a single-character test string. -/
def starts_with_char (s : String) (c : Char) : Bool :=
  match s.toList with
  | [] => false
  | a :: _ => a == c

/-- `re.split(r'[,\n\r]+', text)`: split on maximal runs of separators.
The flag records whether the previous character was a separator, so a run
produces a single cut, exactly as the `+` in the pattern does. -/
def split_sep_aux : List Char → List Char → Bool → List String
  | [], acc, _ => [String.mk acc.reverse]
  | c :: rest, acc, inSep =>
    if c == ',' || c == '\x0a' || c == '\x0d' then
      if inSep then split_sep_aux rest [] true
      else String.mk acc.reverse :: split_sep_aux rest [] true
    else split_sep_aux rest (c :: acc) false

def split_numbers (text : String) : List String :=
  split_sep_aux text.toList [] false

/-- Association list with Python-dict assignment semantics: an existing key
keeps its position and gets the new value; a new key is appended. -/
def insert_assoc {α : Type} (m : List (String × α)) (k : String) (v : α) :
    List (String × α) :=
  match m with
  | [] => [(k, v)]
  | (k0, v0) :: rest =>
    if k0 = k then (k0, v) :: rest else (k0, v0) :: insert_assoc rest k v

/-- Python dict lookup. -/
def lookup_assoc {α : Type} (m : List (String × α)) (k : String) : Option α :=
  match m with
  | [] => none
  | (k0, v0) :: rest => if k0 = k then some v0 else lookup_assoc rest k

/-! ## Number Normalizer (`parse_phone_numbers`, main.py lines 147-203) -/

/-- `v.replace(' ', '').replace('-', '')`. -/
def remove_spaces_dashes (s : String) : String :=
  String.mk ((s.toList.filter (fun c => !(c == ' '))).filter (fun c => !(c == '-')))

/-- The `verified_digits` dict built at the top of `parse_phone_numbers`:
maps the last 10 characters of each verified number's digit-and-plus form to
the verified number with spaces and dashes removed.  The list of verified
numbers is a parameter (in the source it comes from a live Twilio query via
`get_verified_numbers`, which yields `[]` when the client is missing or the
query fails).  `index_step` is the body of its `for v in verified_numbers`
loop. -/
def index_step (acc : List (String × String)) (v : String) :
    List (String × String) :=
  let digits := keep_digits_plus v
  if 10 ≤ digits.length then
    insert_assoc acc (String.mk (last_chars 10 digits.toList))
      (remove_spaces_dashes v)
  else acc

def build_verified_index (verified : List String) : List (String × String) :=
  verified.foldl index_step []

/-- The body of the `for num in numbers` loop of `parse_phone_numbers`:
clean one candidate, infer a country code, and keep it only if its digit-only
form has at least 10 digits (`none` models `continue` / the final filter). -/
def process_candidate (idx : List (String × String)) (num : String) :
    Option String :=
  let num_clean := keep_digits_plus (py_strip num)
  if num_clean = "" then none
  else
    let formatted :=
      if starts_with_char num_clean '+' then num_clean
      else
        if num_clean.length = 10 then
          match lookup_assoc idx num_clean with
          | some v => v
          | none => "+1" ++ num_clean
        else if num_clean.length = 11 && starts_with_char num_clean '1' then
          "+" ++ num_clean
        else if num_clean.length = 10 && starts_with_char num_clean '9' then
          match lookup_assoc idx num_clean with
          | some v => v
          | none => "+91" ++ num_clean
        else "+" ++ num_clean
    if 10 ≤ (digits_only formatted).length then some formatted else none

/-- `parse_phone_numbers(text)` with the provider-verified numbers made an
explicit parameter. -/
def parse_phone_numbers (verified : List String) (text : String) :
    List String :=
  (split_numbers text).filterMap (process_candidate (build_verified_index verified))

/-! ## Error Sanitizer (`strip_ansi_codes`, `clean_error_message`,
main.py lines 27-32 and 80-112) -/

/-- One pass of `re.sub` with the ANSI escape pattern of
`strip_ansi_codes`: at an ESC byte, either a single final byte in the range
0x40-0x5A or 0x5C-0x5F, or a CSI bracket followed by parameter bytes
0x30-0x3F, intermediate bytes 0x20-0x2F, and one final byte 0x40-0x7E.
Fuel is the input length; every recursive call consumes a character. -/
def strip_ansi_aux : Nat → List Char → List Char
  | 0, s => s
  | _ + 1, [] => []
  | fuel + 1, c :: t =>
    if c == '\x1b' then
      match t with
      | [] => [c]
      | d :: rest =>
        if ('\x40' ≤ d ∧ d ≤ '\x5a') ∨ ('\x5c' ≤ d ∧ d ≤ '\x5f') then
          strip_ansi_aux fuel rest
        else if d == '[' then
          let r1 := rest.dropWhile (fun x => '\x30' ≤ x && x ≤ '\x3f')
          let r2 := r1.dropWhile (fun x => '\x20' ≤ x && x ≤ '\x2f')
          match r2 with
          | e :: r3 =>
            if '\x40' ≤ e ∧ e ≤ '\x7e' then strip_ansi_aux fuel r3
            else c :: strip_ansi_aux fuel t
          | [] => c :: strip_ansi_aux fuel t
        else c :: strip_ansi_aux fuel t
    else c :: strip_ansi_aux fuel t

def strip_ansi_codes (s : String) : String :=
  String.mk (strip_ansi_aux s.toList.length s.toList)

def lit_twilio_info : String := "Twilio returned the following information:"
def lit_more_url : String := "More information may be available here:"
def lit_more : String := "More information may be available"
def lit_http_error : String := "HTTP Error"
def lit_unable : String := "Unable to create record:"

/-- Index of the first occurrence of `needle`. -/
def find_sub_idx (needle : List Char) : List Char → Option Nat
  | [] => if needle.isEmpty then some 0 else none
  | h :: t =>
    if needle.isPrefixOf (h :: t) then some 0
    else (find_sub_idx needle t).map (· + 1)

/-- Python `s.split(sep)` for a non-empty literal separator. -/
def split_on_lit_aux (sep : List Char) : Nat → List Char → List Char → List String
  | 0, s, acc => [String.mk (acc.reverse ++ s)]
  | fuel + 1, s, acc =>
    if sep.isPrefixOf s then
      String.mk acc.reverse :: split_on_lit_aux sep fuel (s.drop sep.length) []
    else
      match s with
      | [] => [String.mk acc.reverse]
      | c :: t => split_on_lit_aux sep fuel t (c :: acc)

def split_on_lit (sep s : String) : List String :=
  split_on_lit_aux sep.toList (s.toList.length + 1) s.toList []

/-- `re.sub(r'\[[0-9;]*m', '', s)`: a bracket, a run of digits or
semicolons, and the letter `m`. -/
def rm_ansi_like_aux : Nat → List Char → List Char
  | 0, s => s
  | _ + 1, [] => []
  | fuel + 1, c :: t =>
    if c == '[' then
      match t.dropWhile (fun d => d.isDigit || d == ';') with
      | 'm' :: rest => rm_ansi_like_aux fuel rest
      | _ => c :: rm_ansi_like_aux fuel t
    else c :: rm_ansi_like_aux fuel t

/-- `re.sub(r'More information may be available here:.*$', '', s, re.DOTALL)`:
with DOTALL the match runs to the end of the string, so the substitution
truncates at the first occurrence of the footer. -/
def remove_more_info (l : List Char) : List Char :=
  match find_sub_idx lit_more_url.toList l with
  | some i => l.take i
  | none => l

/-- Does `https?://[^\s]+` match the whole remaining text (as required for
the `$`-anchored URL pattern)? -/
def url_match_to_end : List Char → Bool
  | 'h' :: 't' :: 't' :: 'p' :: 's' :: ':' :: '/' :: '/' :: rest =>
    !rest.isEmpty && rest.all (fun c => !(is_py_space c))
  | 'h' :: 't' :: 't' :: 'p' :: ':' :: '/' :: '/' :: rest =>
    !rest.isEmpty && rest.all (fun c => !(is_py_space c))
  | _ => false

def first_url_idx : List Char → Option Nat
  | [] => none
  | c :: t =>
    if url_match_to_end (c :: t) then some 0 else (first_url_idx t).map (· + 1)

/-- `re.sub(r'https?://[^\s]+$', '', s)`.  Python's `$` also matches just
before a single trailing newline, which the URL itself cannot contain, so
the scan runs over the text without that final newline. -/
def strip_url_end (l : List Char) : List Char :=
  let parts : List Char × List Char :=
    match l.getLast? with
    | some c => if c == '\x0a' then (l.dropLast, ['\x0a']) else (l, [])
    | none => (l, [])
  match first_url_idx parts.1 with
  | some i => parts.1.take i ++ parts.2
  | none => l

/-- `re.sub(r'\s+', ' ', s)`: collapse each whitespace run to one space. -/
def collapse_ws_aux : Nat → List Char → List Char
  | 0, s => s
  | _ + 1, [] => []
  | fuel + 1, c :: t =>
    if is_py_space c then ' ' :: collapse_ws_aux fuel (t.dropWhile is_py_space)
    else c :: collapse_ws_aux fuel t

/-- The lazy `.*?(?=More information may be available|$)` tail: consume as
little as possible until the lookahead literal matches or the string ends
(Python's `$` also matching just before a single final newline). -/
def lazy_take_until (stop : List Char) : Nat → List Char → List Char
  | 0, _ => []
  | fuel + 1, r =>
    if stop.isPrefixOf r then []
    else
      match r with
      | [] => []
      | ['\x0a'] => []
      | c :: t => c :: lazy_take_until stop fuel t

/-- `re.search(r'Unable to create record:.*?(?=More information may be available|$)',
s, re.DOTALL)`, returning `group(0)`. -/
def unable_match (cleaned : List Char) : Option (List Char) :=
  match find_sub_idx lit_unable.toList cleaned with
  | none => none
  | some i =>
    let after := (cleaned.drop i).drop lit_unable.toList.length
    some (lit_unable.toList ++ lazy_take_until lit_more.toList (after.length + 1) after)

/-- Lines 92-100 of `clean_error_message` (also duplicated at lines 312-318
of `make_twilio_call`): take the text after the Twilio preamble and strip
ANSI-like codes, the "More information" footer and a trailing URL. -/
def twilio_core_extract (p1 : String) : String :=
  let e1 := strip_l p1.toList
  let e2 := rm_ansi_like_aux e1.length e1
  let e3 := remove_more_info e2
  let e4 := strip_l e3
  String.mk (strip_l (strip_url_end e4))

/-- `clean_error_message` (main.py lines 80-112). -/
def clean_error_message (error_text : String) : String :=
  if error_text = "" then error_text
  else
    let cleaned := strip_ansi_codes error_text
    let branch1 : Option String :=
      if contains_sub cleaned lit_twilio_info then
        match split_on_lit lit_twilio_info cleaned with
        | _ :: p1 :: _ => some (twilio_core_extract p1)
        | _ => none
      else none
    match branch1 with
    | some r => r
    | none =>
      let branch2 : Option String :=
        if contains_sub cleaned lit_http_error && contains_sub cleaned lit_unable then
          match unable_match cleaned.toList with
          | some m =>
            some (String.mk (collapse_ws_aux (strip_l m).length (strip_l m)))
          | none => none
        else none
      match branch2 with
      | some r => r
      | none => cleaned

/-! ## Call Log Store (`load_call_logs`, `save_call_log`, `cleanup_all_logs`,
main.py lines 63-78 and 114-127) -/

/-- One CallAttempt record, as built at the call sites of `save_call_log`. -/
structure CallLog where
  number : String
  status : String
  success : Bool
  timestamp : String
  call_sid : Option String
  error : Option String

/-- The persisted `calls.json` artifact: absent, unparseable, or a parsed
list of records.  JSON (de)serialisation itself is the standard library's
and is not modelled. -/
inductive FileState where
  | missing : FileState
  | malformed : FileState
  | content : List CallLog → FileState

/-- `load_call_logs`: a missing file or a parse error yields `[]`. -/
def load_call_logs : FileState → List CallLog
  | FileState.missing => []
  | FileState.malformed => []
  | FileState.content l => l

/-- `save_call_log`: load everything, append one entry, rewrite the file. -/
def save_call_log (entry : CallLog) (fs : FileState) : FileState :=
  FileState.content (load_call_logs fs ++ [entry])

/-- Appending a sequence of records one call at a time. -/
def save_call_logs_seq (entries : List CallLog) (fs : FileState) : FileState :=
  entries.foldl (fun s e => save_call_log e s) fs

/-- The per-entry rewrite of `cleanup_all_logs`: a present, truthy
(non-empty) error field is passed through the sanitizer. -/
def clean_log_entry (l : CallLog) : CallLog :=
  match l.error with
  | some s => if s = "" then l else { l with error := some (clean_error_message s) }
  | none => l

/-- `cleanup_all_logs`: rewrite every entry and return the count. -/
def cleanup_all_logs (fs : FileState) : FileState × Nat :=
  let cleaned := (load_call_logs fs).map clean_log_entry
  (FileState.content cleaned, cleaned.length)

/-! ## Call Dispatcher (`make_twilio_call`, main.py lines 272-337) -/

/-- The provider's response to `calls.create` on success. -/
structure CallCreated where
  sid : String
  status : String

/-- The dict returned by `make_twilio_call`; absent keys are `none`. -/
structure TwilioResult where
  success : Bool
  call_sid : Option String
  status : Option String
  number : Option String
  error : Option String

/-- A match of `\+?\d{10,}` starting exactly here. -/
def plus_digits_here (l : List Char) : Option (List Char) :=
  match l with
  | '+' :: t =>
    let run := t.takeWhile Char.isDigit
    if 10 ≤ run.length then some ('+' :: run) else none
  | _ =>
    let run := l.takeWhile Char.isDigit
    if 10 ≤ run.length then some run else none

/-- `re.search(r'\+?\d{10,}', s)`: leftmost match. -/
def search_plus_digits : List Char → Option (List Char)
  | [] => none
  | c :: t =>
    match plus_digits_here (c :: t) with
    | some m => some m
    | none => search_plus_digits t

/-- The `except` branch of `make_twilio_call` (lines 303-331): strip ANSI
codes, extract the core Twilio message, and append verification guidance. -/
def twilio_error_transform (e : String) : String :=
  let msg0 := strip_ansi_codes e
  let error_msg :=
    if contains_sub msg0 lit_twilio_info then
      match split_on_lit lit_twilio_info msg0 with
      | _ :: p1 :: _ => twilio_core_extract p1
      | _ => msg0
    else msg0
  let lower := to_lower error_msg
  if contains_sub lower "not yet verified" || contains_sub lower "unverified" ||
      contains_sub lower "verified" then
    if contains_sub lower "source phone number" then
      error_msg ++ " | Fix: Use a Twilio-purchased number in TWILIO_PHONE_NUMBER (Twilio numbers are auto-verified)"
    else
      match search_plus_digits error_msg.toList with
      | some num =>
        error_msg ++ " | Action Required: Verify the DESTINATION number " ++
          String.mk num ++
          " at https://console.twilio.com/us1/develop/phone-numbers/manage/verified (Trial accounts must verify numbers they want to CALL)"
      | none =>
        error_msg ++ " | Tip: For trial accounts, verify destination numbers in Twilio Console → Verified Caller IDs"
  else error_msg

/-- `make_twilio_call`.  The Twilio client is `none` when unconfigured; the
provider round trip is a parameter: `Except.ok` is a created call,
`Except.error e` is any exception, whose string is `e`. -/
def make_twilio_call (client : Option Unit)
    (outcome : Except String CallCreated) (phone_number : String) :
    TwilioResult :=
  match client with
  | none =>
    { success := false, call_sid := none, status := none, number := none,
      error := some "Twilio credentials not configured" }
  | some _ =>
    match outcome with
    | Except.ok call =>
      { success := true, call_sid := some call.sid, status := some call.status,
        number := some phone_number, error := none }
    | Except.error e =>
      { success := false, call_sid := none, status := none,
        number := some phone_number, error := some (twilio_error_transform e) }

/-! ## Command Interpreter (`parse_ai_command`, main.py lines 205-270)

The function returns whatever Python dict `json.loads` produced from the
model's reply, so the result type is a model of Python/JSON values.
Numbers keep their source literal (no claim inspects numeric values). -/

inductive PyVal where
  | vStr : String → PyVal
  | vNum : String → PyVal
  | vBool : Bool → PyVal
  | vNull : PyVal
  | vList : List PyVal → PyVal
  | vDict : List (String × PyVal) → PyVal

/-- JSON inter-token whitespace. -/
def json_ws (l : List Char) : List Char :=
  l.dropWhile (fun c => c == ' ' || c == '\x09' || c == '\x0a' || c == '\x0d')

def hex_val (c : Char) : Option Nat :=
  if c.isDigit then some (c.toNat - 48)
  else if 'a' ≤ c ∧ c ≤ 'f' then some (c.toNat - 87)
  else if 'A' ≤ c ∧ c ≤ 'F' then some (c.toNat - 55)
  else none

def hex4_val (h1 h2 h3 h4 : Char) : Option Nat :=
  match hex_val h1, hex_val h2, hex_val h3, hex_val h4 with
  | some a, some b, some c, some d => some (((a * 16 + b) * 16 + c) * 16 + d)
  | _, _, _, _ => none

/-- JSON string body after the opening quote; returns the decoded characters
and the rest after the closing quote.  Strict mode: an unescaped control
character or an unknown escape is an error.  A `\uXXXX` high surrogate
followed by a low surrogate is combined; a lone surrogate has no Lean
`Char`, so it decodes to the replacement of `Char.ofNat` (the claims never
inspect such strings). -/
def parse_jstring_body : Nat → List Char → Option (List Char × List Char)
  | 0, _ => none
  | _ + 1, [] => none
  | fuel + 1, c :: rest =>
    if c == '"' then some ([], rest)
    else if c == '\\' then
      match rest with
      | 'u' :: h1 :: h2 :: h3 :: h4 :: r2 =>
        match hex4_val h1 h2 h3 h4 with
        | none => none
        | some n =>
          if 0xd800 ≤ n ∧ n ≤ 0xdbff then
            match r2 with
            | '\\' :: 'u' :: g1 :: g2 :: g3 :: g4 :: r3 =>
              match hex4_val g1 g2 g3 g4 with
              | some m =>
                if 0xdc00 ≤ m ∧ m ≤ 0xdfff then
                  (parse_jstring_body fuel r3).map
                    (fun p => (Char.ofNat (0x10000 + (n - 0xd800) * 0x400 + (m - 0xdc00)) :: p.1, p.2))
                else
                  (parse_jstring_body fuel r2).map
                    (fun p => (Char.ofNat n :: p.1, p.2))
              | none =>
                (parse_jstring_body fuel r2).map
                  (fun p => (Char.ofNat n :: p.1, p.2))
            | _ =>
              (parse_jstring_body fuel r2).map
                (fun p => (Char.ofNat n :: p.1, p.2))
          else
            (parse_jstring_body fuel r2).map (fun p => (Char.ofNat n :: p.1, p.2))
      | e :: r2 =>
        let esc : Option Char :=
          if e == '"' then some '"'
          else if e == '\\' then some '\\'
          else if e == '/' then some '/'
          else if e == 'b' then some '\x08'
          else if e == 'f' then some '\x0c'
          else if e == 'n' then some '\x0a'
          else if e == 'r' then some '\x0d'
          else if e == 't' then some '\x09'
          else none
        match esc with
        | some ch => (parse_jstring_body fuel r2).map (fun p => (ch :: p.1, p.2))
        | none => none
      | [] => none
    else if c.toNat < 0x20 then none
    else (parse_jstring_body fuel rest).map (fun p => (c :: p.1, p.2))

/-- The JSON number grammar (sign, integer part without leading zeros,
optional fraction and exponent); returns the literal and the rest. -/
def parse_jnumber (l : List Char) : Option (List Char × List Char) :=
  let neg_rest : List Char × List Char :=
    match l with
    | '-' :: t => (['-'], t)
    | _ => ([], l)
  let int_part : Option (List Char × List Char) :=
    match neg_rest.2 with
    | '0' :: t => some (['0'], t)
    | d :: t =>
      if d.isDigit then some (d :: t.takeWhile Char.isDigit, t.dropWhile Char.isDigit)
      else none
    | [] => none
  match int_part with
  | none => none
  | some (ip, r1) =>
    let frac : Option (List Char × List Char) :=
      match r1 with
      | '.' :: t =>
        let ds := t.takeWhile Char.isDigit
        if ds.isEmpty then none else some ('.' :: ds, t.dropWhile Char.isDigit)
      | _ => some ([], r1)
    match frac with
    | none => none
    | some (fp, r2) =>
      let expo : Option (List Char × List Char) :=
        match r2 with
        | e :: t =>
          if e == 'e' || e == 'E' then
            let sign_rest : List Char × List Char :=
              match t with
              | '+' :: t2 => (['+'], t2)
              | '-' :: t2 => (['-'], t2)
              | _ => ([], t)
            let ds := sign_rest.2.takeWhile Char.isDigit
            if ds.isEmpty then none
            else some (e :: (sign_rest.1 ++ ds), sign_rest.2.dropWhile Char.isDigit)
          else some ([], r2)
        | [] => some ([], r2)
      match expo with
      | none => none
      | some (ep, r3) => some (neg_rest.1 ++ ip ++ fp ++ ep, r3)

mutual

/-- `json.loads` value parser (Python also accepts `NaN` and `Infinity`). -/
def parse_jvalue : Nat → List Char → Option (PyVal × List Char)
  | 0, _ => none
  | fuel + 1, input =>
    match json_ws input with
    | [] => none
    | '"' :: rest =>
      (parse_jstring_body (rest.length + 1) rest).map
        (fun p => (PyVal.vStr (String.mk p.1), p.2))
    | '\x7b' :: rest => parse_jmembers fuel (json_ws rest) [] true
    | '[' :: rest => parse_jitems fuel (json_ws rest) [] true
    | 't' :: 'r' :: 'u' :: 'e' :: r => some (PyVal.vBool true, r)
    | 'f' :: 'a' :: 'l' :: 's' :: 'e' :: r => some (PyVal.vBool false, r)
    | 'n' :: 'u' :: 'l' :: 'l' :: r => some (PyVal.vNull, r)
    | 'N' :: 'a' :: 'N' :: r => some (PyVal.vNum "NaN", r)
    | 'I' :: 'n' :: 'f' :: 'i' :: 'n' :: 'i' :: 't' :: 'y' :: r =>
      some (PyVal.vNum "Infinity", r)
    | '-' :: 'I' :: 'n' :: 'f' :: 'i' :: 'n' :: 'i' :: 't' :: 'y' :: r =>
      some (PyVal.vNum "-Infinity", r)
    | other => (parse_jnumber other).map (fun p => (PyVal.vNum (String.mk p.1), p.2))

/-- Object members after the opening brace (whitespace already skipped);
duplicate keys overwrite as in a Python dict. -/
def parse_jmembers : Nat → List Char → List (String × PyVal) → Bool →
    Option (PyVal × List Char)
  | 0, _, _, _ => none
  | fuel + 1, l, acc, first =>
    match l with
    | '\x7d' :: r => if first then some (PyVal.vDict acc, r) else none
    | '"' :: rest =>
      match parse_jstring_body (rest.length + 1) rest with
      | none => none
      | some (kcs, r1) =>
        match json_ws r1 with
        | ':' :: r2 =>
          match parse_jvalue fuel r2 with
          | none => none
          | some (v, r3) =>
            let acc2 := insert_assoc acc (String.mk kcs) v
            match json_ws r3 with
            | ',' :: r4 => parse_jmembers fuel (json_ws r4) acc2 false
            | '\x7d' :: r4 => some (PyVal.vDict acc2, r4)
            | _ => none
        | _ => none
    | _ => none

/-- Array items after the opening bracket (whitespace already skipped). -/
def parse_jitems : Nat → List Char → List PyVal → Bool →
    Option (PyVal × List Char)
  | 0, _, _, _ => none
  | fuel + 1, l, acc, first =>
    match l with
    | ']' :: r => if first then some (PyVal.vList acc.reverse, r) else none
    | _ =>
      match parse_jvalue fuel l with
      | none => none
      | some (v, r1) =>
        match json_ws r1 with
        | ',' :: r2 => parse_jitems fuel (json_ws r2) (v :: acc) false
        | ']' :: r2 => some (PyVal.vList (v :: acc).reverse, r2)
        | _ => none

end

/-- `json.loads`: a single value with nothing but whitespace after it. -/
def json_loads (s : String) : Option PyVal :=
  match parse_jvalue (2 * s.toList.length + 4) s.toList with
  | some (v, rest) => if (json_ws rest).isEmpty then some v else none
  | none => none

/-- A match of `\{[^}]+\}` starting exactly here: an opening brace, at
least one non-closing-brace character, and a closing brace. -/
def braces_here (l : List Char) : Option (List Char) :=
  match l with
  | '\x7b' :: t =>
    let inner := t.takeWhile (fun c => !(c == '\x7d'))
    match t.dropWhile (fun c => !(c == '\x7d')) with
    | '\x7d' :: _ => if inner.isEmpty then none else some ('\x7b' :: (inner ++ ['\x7d']))
    | _ => none
  | _ => none

/-- `re.search(r'\{[^}]+\}', s)`: leftmost match. -/
def search_braces : List Char → Option (List Char)
  | [] => none
  | c :: t =>
    match braces_here (c :: t) with
    | some m => some m
    | none => search_braces t

/-- The reply-processing step of `parse_ai_command`: strip the reply, find
the first brace-delimited chunk, and `json.loads` it.  `none` covers both
"no JSON found" (the `if json_match` guard fails) and "loads raised" (the
exception is caught); both continue into the regex fallback. -/
def ai_extract (text : String) : Option PyVal :=
  match search_braces (py_strip text).toList with
  | some m => json_loads (String.mk m)
  | none => none

/-- `re.findall(r'\d{10,}', s)`: maximal digit runs of length at least 10. -/
def findall_digit_runs : Nat → List Char → List String
  | 0, _ => []
  | _ + 1, [] => []
  | fuel + 1, c :: t =>
    if c.isDigit then
      let run := c :: t.takeWhile Char.isDigit
      let rest := t.dropWhile Char.isDigit
      if 10 ≤ run.length then String.mk run :: findall_digit_runs fuel rest
      else findall_digit_runs fuel rest
    else findall_digit_runs fuel t

def has_digit (s : String) : Bool := s.toList.any Char.isDigit

def dict_call_single (n : String) : PyVal :=
  PyVal.vDict [("action", PyVal.vStr "call_single"), ("number", PyVal.vStr n)]

def dict_call_all : PyVal := PyVal.vDict [("action", PyVal.vStr "call_all")]

def dict_unknown : PyVal :=
  PyVal.vDict [("action", PyVal.vStr "unknown"),
    ("error", PyVal.vStr "Could not parse command")]

/-- The no-provider fallback (lines 208-215): requires both the word "call"
and some digit before looking for a 10-digit run. -/
def fallback_no_provider (prompt : String) : PyVal :=
  let lp := to_lower prompt
  let first_try : Option PyVal :=
    if contains_sub lp "call" && has_digit prompt then
      match findall_digit_runs prompt.toList.length prompt.toList with
      | n :: _ => some (dict_call_single n)
      | [] => none
    else none
  match first_try with
  | some v => v
  | none =>
    if contains_sub lp "start calling" || contains_sub lp "call all" then dict_call_all
    else dict_unknown

/-- The post-backend fallback (lines 262-270): same rules, without the
digit pre-check. -/
def fallback_after_backend (prompt : String) : PyVal :=
  let lp := to_lower prompt
  let first_try : Option PyVal :=
    if contains_sub lp "call" then
      match findall_digit_runs prompt.toList.length prompt.toList with
      | n :: _ => some (dict_call_single n)
      | [] => none
    else none
  match first_try with
  | some v => v
  | none =>
    if contains_sub lp "start calling" || contains_sub lp "call all" then dict_call_all
    else dict_unknown

/-- Outcome of the language-model round trip: no provider configured, any
exception from the backend call, or a reply text.  Gemini and OpenAI take
the same extract-and-load path, so one reply constructor covers both. -/
inductive AIBehavior where
  | noProvider : AIBehavior
  | failure : AIBehavior
  | reply : String → AIBehavior

/-- `parse_ai_command`.  A successfully extracted and parsed JSON object is
returned unvalidated; every other path degrades to a regex fallback. -/
def parse_ai_command (b : AIBehavior) (prompt : String) : PyVal :=
  match b with
  | AIBehavior.noProvider => fallback_no_provider prompt
  | AIBehavior.failure => fallback_after_backend prompt
  | AIBehavior.reply t =>
    match ai_extract t with
    | some v => v
    | none => fallback_after_backend prompt

/-- Is the value one of the three variants of the spec's ParsedCommand:
`call_single` with a number, `call_all`, or `unknown` with an error? -/
def is_three_variant (v : PyVal) : Bool :=
  match v with
  | PyVal.vDict fields =>
    match lookup_assoc fields "action" with
    | some (PyVal.vStr a) =>
      if a = "call_single" then
        match lookup_assoc fields "number" with
        | some (PyVal.vStr _) => true
        | _ => false
      else if a = "call_all" then true
      else if a = "unknown" then
        match lookup_assoc fields "error" with
        | some (PyVal.vStr _) => true
        | _ => false
      else false
    | _ => false
  | _ => false

/-! ## POST /call handler (`initiate_calls`, main.py lines 350-390) -/

structure FileUpload where
  filename : String
  content : String

/-- Which text the handler normalizes: the uploaded file wins when present
with a truthy filename, else the form field when truthy, else nothing. -/
def request_numbers (verified : List String) (numbers : Option String)
    (file : Option FileUpload) : List String :=
  let form_branch : List String :=
    match numbers with
    | some s => if s = "" then [] else parse_phone_numbers verified s
    | none => []
  match file with
  | some fu =>
    if fu.filename = "" then form_branch
    else parse_phone_numbers verified fu.content
  | none => form_branch

/-- The JSON body returned by the handler; absent keys are `none`. -/
structure CallResponse where
  success : Bool
  error : Option String
  total : Option Nat
  results : Option (List CallLog)

/-- The per-number dispatch loop: call, build a CallAttempt record with the
i-th timestamp, persist it, collect it. -/
def dispatch_loop (call : String → TwilioResult) (now : Nat → String) :
    List String → Nat → FileState → List CallLog → List CallLog × FileState
  | [], _, fs, acc => (acc, fs)
  | n :: rest, i, fs, acc =>
    let result := call n
    let entry : CallLog :=
      { number := n,
        status := result.status.getD "failed",
        success := result.success,
        timestamp := now i,
        call_sid := result.call_sid,
        error := result.error }
    dispatch_loop call now rest (i + 1) (save_call_log entry fs) (acc ++ [entry])

/-- `initiate_calls`: the provider round trips and the clock are parameters
(`call` is `make_twilio_call` with that request's outcomes, `now i` the
i-th `datetime.now().isoformat()`). -/
def initiate_calls (verified : List String) (numbers : Option String)
    (file : Option FileUpload) (call : String → TwilioResult)
    (now : Nat → String) (fs : FileState) : CallResponse × FileState :=
  let phone_numbers := request_numbers verified numbers file
  if phone_numbers.isEmpty then
    ({ success := false, error := some "No valid phone numbers provided",
       total := none, results := none }, fs)
  else
    let out := dispatch_loop call now phone_numbers 0 fs []
    ({ success := true, error := none, total := some phone_numbers.length,
       results := some out.1 }, out.2)

/-! ## Helper lemmas -/

@[simp] lemma string_toList_mk (l : List Char) : (String.mk l).toList = l := rfl

@[simp] lemma string_length_mk (l : List Char) : (String.mk l).length = l.length := rfl

lemma string_mk_toList (s : String) : String.mk s.toList = s := by
  cases s
  rfl

lemma digit_ne_of_not_digit {x c : Char} (hx : x.isDigit = true)
    (hc : ¬ c.isDigit = true) : x ≠ c := fun he => hc (he ▸ hx)

lemma digit_not_space {x : Char} (hx : x.isDigit = true) : is_py_space x = false := by
  have h1 := digit_ne_of_not_digit hx (c := ' ') (by decide)
  have h2 := digit_ne_of_not_digit hx (c := '\x09') (by decide)
  have h3 := digit_ne_of_not_digit hx (c := '\x0a') (by decide)
  have h4 := digit_ne_of_not_digit hx (c := '\x0d') (by decide)
  have h5 := digit_ne_of_not_digit hx (c := '\x0b') (by decide)
  have h6 := digit_ne_of_not_digit hx (c := '\x0c') (by decide)
  simp [is_py_space, h1, h2, h3, h4, h5, h6]

lemma digit_not_plus {x : Char} (hx : x.isDigit = true) : (x == '+') = false := by
  have h := digit_ne_of_not_digit hx (c := '+') (by decide)
  simp [h]

lemma digit_not_space_char {x : Char} (hx : x.isDigit = true) : (x == ' ') = false := by
  have h := digit_ne_of_not_digit hx (c := ' ') (by decide)
  simp [h]

lemma digit_not_dash {x : Char} (hx : x.isDigit = true) : (x == '-') = false := by
  have h := digit_ne_of_not_digit hx (c := '-') (by decide)
  simp [h]

lemma dropWhile_eq_self_of {p : Char → Bool} {l : List Char}
    (h : ∀ x ∈ l, p x = false) : l.dropWhile p = l := by
  cases l with
  | nil => rfl
  | cons a t => simp [List.dropWhile_cons, h a (List.mem_cons_self a t)]

lemma strip_l_eq_self {l : List Char} (h : ∀ x ∈ l, is_py_space x = false) :
    strip_l l = l := by
  unfold strip_l
  rw [dropWhile_eq_self_of h]
  rw [dropWhile_eq_self_of (fun x hx => h x (List.mem_reverse.mp hx))]
  exact List.reverse_reverse l

lemma lookup_assoc_mem {α : Type} {m : List (String × α)} {k : String} {v : α}
    (h : lookup_assoc m k = some v) : (k, v) ∈ m := by
  induction m with
  | nil => simp [lookup_assoc] at h
  | cons p rest ih =>
    obtain ⟨k0, v0⟩ := p
    simp only [lookup_assoc] at h
    split at h
    · next hk =>
      injection h with h2
      subst hk
      subst h2
      exact List.mem_cons_self _ _
    · exact List.mem_cons_of_mem _ (ih h)

lemma insert_assoc_mem {α : Type} {m : List (String × α)} {k : String} {v : α}
    {kv : String × α} (h : kv ∈ insert_assoc m k v) : kv ∈ m ∨ kv = (k, v) := by
  induction m with
  | nil =>
    simp only [insert_assoc] at h
    right
    simpa using h
  | cons p rest ih =>
    obtain ⟨k0, v0⟩ := p
    simp only [insert_assoc] at h
    split at h
    · next hk =>
      rcases List.mem_cons.mp h with h1 | h1
      · right
        rw [h1, hk]
      · left
        exact List.mem_cons_of_mem _ h1
    · rcases List.mem_cons.mp h with h1 | h1
      · left
        rw [h1]
        exact List.mem_cons_self _ _
      · rcases ih h1 with h2 | h2
        · left
          exact List.mem_cons_of_mem _ h2
        · right
          exact h2

lemma filter_digits_of_clean (L : List Char) :
    ((L.filter (fun c => !(c == ' '))).filter (fun c => !(c == '-'))).filter Char.isDigit
      = L.filter Char.isDigit := by
  rw [List.filter_filter, List.filter_filter]
  apply List.filter_congr
  intro x _
  cases hxd : x.isDigit with
  | false => simp [hxd]
  | true => simp [hxd, digit_not_dash hxd, digit_not_space_char hxd]

lemma filter_digits_of_kdp (L : List Char) :
    (L.filter (fun c => c.isDigit || c == '+')).filter Char.isDigit
      = L.filter Char.isDigit := by
  rw [List.filter_filter]
  apply List.filter_congr
  intro x _
  cases hxd : x.isDigit <;> simp [hxd]

/-- A freshly inserted index entry whose key is all digits maps to a value
with at least 10 digits, so substituting it survives the final length
filter of `parse_phone_numbers`. -/
lemma new_entry_bound (v : String)
    (hlen : 10 ≤ (keep_digits_plus v).length)
    (hk : ∀ x ∈ last_chars 10 (keep_digits_plus v).toList, x.isDigit = true) :
    10 ≤ (digits_only (remove_spaces_dashes v)).length := by
  have hk' : ∀ x ∈ (kdp_l v.toList).drop ((kdp_l v.toList).length - 10),
      x.isDigit = true := by
    unfold last_chars at hk
    exact hk
  have hlen' : 10 ≤ (kdp_l v.toList).length := hlen
  have h1 : (digits_only (remove_spaces_dashes v)).length
      = (v.toList.filter Char.isDigit).length := by
    unfold digits_only remove_spaces_dashes
    simp only [string_toList_mk, string_length_mk]
    rw [filter_digits_of_clean]
  have h2 : v.toList.filter Char.isDigit
      = (kdp_l v.toList).filter Char.isDigit := by
    unfold kdp_l
    rw [filter_digits_of_kdp]
  rw [h1, h2]
  set D := kdp_l v.toList with hD
  have h4 : (D.filter Char.isDigit).length
      = ((D.take (D.length - 10)).filter Char.isDigit).length
        + ((D.drop (D.length - 10)).filter Char.isDigit).length := by
    conv_lhs => rw [← List.take_append_drop (D.length - 10) D]
    rw [List.filter_append, List.length_append]
  rw [h4]
  have h5 : (D.drop (D.length - 10)).filter Char.isDigit = D.drop (D.length - 10) :=
    List.filter_eq_self.mpr hk'
  rw [h5]
  have h6 : (D.drop (D.length - 10)).length = 10 := by
    rw [List.length_drop]
    omega
  omega

lemma index_entries_bound (vs : List String) (acc : List (String × String))
    (hacc : ∀ kv ∈ acc, (∀ x ∈ (kv.1 : String).toList, x.isDigit = true) →
      10 ≤ (digits_only kv.2).length) :
    ∀ kv ∈ vs.foldl index_step acc,
      (∀ x ∈ (kv.1 : String).toList, x.isDigit = true) →
        10 ≤ (digits_only kv.2).length := by
  induction vs generalizing acc with
  | nil => simpa using hacc
  | cons v t ih =>
    rw [List.foldl_cons]
    apply ih
    intro kv hkv hdig
    simp only [index_step] at hkv
    split at hkv
    · next hlen =>
      rcases insert_assoc_mem hkv with hmem | heq
      · exact hacc kv hmem hdig
      · subst heq
        apply new_entry_bound v hlen
        intro x hx
        exact hdig x (by simpa using hx)
    · exact hacc kv hkv hdig

lemma build_verified_index_bound {verified : List String} {kv : String × String}
    (h : kv ∈ build_verified_index verified)
    (hdig : ∀ x ∈ (kv.1 : String).toList, x.isDigit = true) :
    10 ≤ (digits_only kv.2).length :=
  index_entries_bound verified []
    (by intro kv h; simp at h) kv h hdig

lemma three_variant_call_single (n : String) :
    is_three_variant (dict_call_single n) = true := rfl

lemma three_variant_call_all : is_three_variant dict_call_all = true := rfl

lemma three_variant_unknown : is_three_variant dict_unknown = true := rfl

/-- Both regex fallbacks share one branch shape; whatever the conditions
and the digit runs, the result is one of the three variant dicts. -/
lemma fallback_shape (cond c2 : Bool) (runs : List String) :
    is_three_variant
      (match (if cond then
                match runs with
                | n :: _ => some (dict_call_single n)
                | [] => none
              else none) with
       | some v => v
       | none => if c2 then dict_call_all else dict_unknown) = true := by
  cases cond with
  | false =>
    cases c2 with
    | false => exact three_variant_unknown
    | true => exact three_variant_call_all
  | true =>
    cases runs with
    | nil =>
      cases c2 with
      | false => exact three_variant_unknown
      | true => exact three_variant_call_all
    | cons n t => exact three_variant_call_single n

lemma fallback_no_provider_three_variant (p : String) :
    is_three_variant (fallback_no_provider p) = true := by
  unfold fallback_no_provider
  exact fallback_shape _ _ _

lemma fallback_after_backend_three_variant (p : String) :
    is_three_variant (fallback_after_backend p) = true := by
  unfold fallback_after_backend
  exact fallback_shape _ _ _

/-! ## Claim theorems -/

/-- C1: the spec claims an unmatched 10-digit candidate starting with `9`
is given the `+91` prefix.  The code's dedicated `+91` branch (line 187,
with its "For Indian numbers" comment) is unreachable: the earlier
`len == 10` branch (line 176) already catches every 10-digit candidate and
defaults to `+1`.  Evaluating the normalizer at the failing input shows the
actual behavior. -/
theorem C1_nine_digit_divergence :
    parse_phone_numbers [] "9876543210" = ["+19876543210"] := rfl

/-- C2: a 10-digit, all-digit candidate whose digits hit the verified-number
index is replaced by exactly the stored formatted value (and survives the
final at-least-10-digits filter).  `process_candidate` is the per-candidate
loop body through which `parse_phone_numbers` is defined. -/
theorem C2_verified_substitution (verified : List String) (c v : String)
    (hlen : c.length = 10)
    (hdig : c.toList.all Char.isDigit = true)
    (hlook : lookup_assoc (build_verified_index verified) c = some v) :
    process_candidate (build_verified_index verified) c = some v := by
  have hd : ∀ x ∈ c.toList, x.isDigit = true := by
    intro x hx
    exact List.all_eq_true.mp hdig x hx
  have hstrip : py_strip c = c := by
    unfold py_strip
    rw [strip_l_eq_self (fun x hx => digit_not_space (hd x hx))]
    exact string_mk_toList c
  have hkdp : keep_digits_plus c = c := by
    unfold keep_digits_plus kdp_l
    rw [List.filter_eq_self.mpr ?_]
    · exact string_mk_toList c
    · intro a ha
      simp [hd a ha]
  have hne : ¬ c = "" := by
    intro h
    rw [h] at hlen
    exact absurd hlen (by decide)
  have hplus : starts_with_char c '+' = false := by
    unfold starts_with_char
    cases hc : c.toList with
    | nil => rfl
    | cons a t =>
      exact digit_not_plus (hd a (by rw [hc]; exact List.mem_cons_self a t))
  have hbound : 10 ≤ (digits_only v).length :=
    build_verified_index_bound (lookup_assoc_mem hlook) (fun x hx => hd x hx)
  simp [process_candidate, hstrip, hkdp, hne, hplus, hlen, hlook, hbound]

/-- Witness for C2 at a concrete verified list and candidate. -/
theorem C2_verified_substitution_witness :
    ("4155551234" : String).length = 10 ∧
    ("4155551234" : String).toList.all Char.isDigit = true ∧
    lookup_assoc (build_verified_index ["+14155551234"]) "4155551234"
      = some "+14155551234" ∧
    process_candidate (build_verified_index ["+14155551234"]) "4155551234"
      = some "+14155551234" :=
  ⟨by decide, by decide, by decide,
    C2_verified_substitution ["+14155551234"] "4155551234" "+14155551234"
      (by decide) (by decide) (by decide)⟩

/-- C3 (corrected): `parse_ai_command` never raises (it is total over every
backend outcome) and every result is either one of the three fallback
variants or exactly the JSON object extracted and parsed from the model's
reply, which is returned without validation. -/
theorem C3_interpreter_amended (b : AIBehavior) (p : String) :
    is_three_variant (parse_ai_command b p) = true ∨
    ∃ t, b = AIBehavior.reply t ∧ ai_extract t = some (parse_ai_command b p) := by
  cases b with
  | noProvider => exact Or.inl (fallback_no_provider_three_variant p)
  | failure => exact Or.inl (fallback_after_backend_three_variant p)
  | reply t =>
    cases h : ai_extract t with
    | none =>
      left
      simp only [parse_ai_command, h]
      exact fallback_after_backend_three_variant p
    | some v =>
      right
      exact ⟨t, rfl, by simp only [parse_ai_command, h]⟩

/-- C3 counterexample: a backend reply whose embedded JSON object parses
but is none of the three variants is returned as-is, refuting the claim
that the interpreter always returns one of exactly the three variants. -/
theorem C3_interpreter_counterexample :
    parse_ai_command (AIBehavior.reply "\x7b\"action\": \"noop\"\x7d") "call the number"
      = PyVal.vDict [("action", PyVal.vStr "noop")] ∧
    is_three_variant
      (parse_ai_command (AIBehavior.reply "\x7b\"action\": \"noop\"\x7d") "call the number")
      = false :=
  ⟨rfl, rfl⟩

/-- C4: the upload scenario.  The 3-digit candidate is dropped by the
10-digit filter, the bare 10-digit candidate gets `+1`, and the
`+`-prefixed candidate passes through unchanged. -/
theorem C4_upload_scenario :
    parse_phone_numbers [] "123, 4567890123\n+442071838750"
      = ["+14567890123", "+442071838750"] := rfl

/-- C5: appending records one `save_call_log` at a time and then loading
yields the initial contents followed by exactly those records in order. -/
theorem C5_append_round_trip (entries : List CallLog) (fs : FileState) :
    load_call_logs (save_call_logs_seq entries fs)
      = load_call_logs fs ++ entries := by
  induction entries generalizing fs with
  | nil => simp [save_call_logs_seq]
  | cons e t ih =>
    have hstep : save_call_logs_seq (e :: t) fs
        = save_call_logs_seq t (save_call_log e fs) := rfl
    rw [hstep, ih, save_call_log]
    simp [load_call_logs]

/-- C6: an unconfigured client short-circuits to the configuration-error
result whatever the provider outcome would have been (no network call),
and any provider exception becomes a structured failure carrying the
sanitized-and-annotated error string; neither path escapes as an
exception. -/
theorem C6_dispatcher_failures :
    (∀ (outcome : Except String CallCreated) (n : String),
      make_twilio_call none outcome n =
        { success := false, call_sid := none, status := none, number := none,
          error := some "Twilio credentials not configured" }) ∧
    (∀ (e n : String),
      make_twilio_call (some ()) (Except.error e) n =
        { success := false, call_sid := none, status := none,
          number := some n, error := some (twilio_error_transform e) }) :=
  ⟨fun _ _ => rfl, fun _ _ => rfl⟩

/-- C7: the sanitizer on the spec's example extracts exactly "Some error",
with no URL and no escape codes left. -/
theorem C7_sanitizer_example :
    clean_error_message
        "Twilio returned the following information:\x0a  Some error\x0aMore information may be available here: http://x"
      = "Some error" ∧
    contains_sub
        (clean_error_message
          "Twilio returned the following information:\x0a  Some error\x0aMore information may be available here: http://x")
        "http" = false ∧
    (clean_error_message
        "Twilio returned the following information:\x0a  Some error\x0aMore information may be available here: http://x").toList.all
      (fun c => !(c == '\x1b')) = true :=
  ⟨rfl, rfl, rfl⟩

/-- C8: the deterministic fallback with no backend configured on the three
spec examples. -/
theorem C8_fallback_examples :
    parse_ai_command AIBehavior.noProvider "Call 9876543210 now"
      = PyVal.vDict [("action", PyVal.vStr "call_single"),
          ("number", PyVal.vStr "9876543210")] ∧
    parse_ai_command AIBehavior.noProvider "start calling all numbers"
      = PyVal.vDict [("action", PyVal.vStr "call_all")] ∧
    parse_ai_command AIBehavior.noProvider "hello there"
      = PyVal.vDict [("action", PyVal.vStr "unknown"),
          ("error", PyVal.vStr "Could not parse command")] :=
  ⟨rfl, rfl, rfl⟩

/-- C9: cleanup maps the sanitizer over exactly the non-empty error fields,
keeps every other field, the entry count and the order, and returns the
number of entries. -/
theorem C9_cleanup_frame (fs : FileState) :
    load_call_logs (cleanup_all_logs fs).1
      = (load_call_logs fs).map clean_log_entry ∧
    (cleanup_all_logs fs).2 = (load_call_logs fs).length ∧
    ∀ l : CallLog,
      (clean_log_entry l).number = l.number ∧
      (clean_log_entry l).status = l.status ∧
      (clean_log_entry l).success = l.success ∧
      (clean_log_entry l).timestamp = l.timestamp ∧
      (clean_log_entry l).call_sid = l.call_sid ∧
      (clean_log_entry l).error =
        (match l.error with
         | some s => if s = "" then some s else some (clean_error_message s)
         | none => none) := by
  refine ⟨rfl, by simp [cleanup_all_logs], ?_⟩
  intro l
  cases he : l.error with
  | none => simp [clean_log_entry, he]
  | some s =>
    by_cases hs : s = "" <;> simp [clean_log_entry, he, hs]

/-- C10: the handler's top-level success bit is exactly "some valid number
was parsed", for every outcome of the individual calls; when none was
parsed the body carries the error string instead. -/
theorem C10_toplevel_success (verified : List String) (numbers : Option String)
    (file : Option FileUpload) (call : String → TwilioResult)
    (now : Nat → String) (fs : FileState) :
    (initiate_calls verified numbers file call now fs).1.success
      = !(request_numbers verified numbers file).isEmpty ∧
    (initiate_calls verified numbers file call now fs).1.error
      = (if (request_numbers verified numbers file).isEmpty then
          some "No valid phone numbers provided" else none) := by
  cases h : (request_numbers verified numbers file).isEmpty <;>
    simp [initiate_calls, h]

end DialAI
